import Mathlib

/-!
Verification of the resource-upload subsystem of juju/charmstore-client.

The Go source (package charmcmd, resource upload file) is shallowly embedded:

* `Sha256.sha256` models the crypto/sha256 standard-library hash used by
  `readSeekerSHA256` (bytes are `Nat < 256`, 32-bit words are `Nat` reduced
  modulo `2^32`).
* `ReadSeeker` and `readSeekerSHA256` model the seekable byte source and the
  content hasher.
* `Reference` and `imageDigestForReference` model the docker registry digest
  resolver.
* `FileUploadOracle` and `uploadFileResource` model the resumable upload
  engine; the behaviour of external collaborators (the charm store csclient
  API, the upload-id cache implementation, the filesystem) is supplied by an
  oracle, and the invocation produces an explicit event trace on which the
  ordering and counting properties are stated.
* `uploadDockerResource` models the docker resource dispatcher.
-/

namespace Charmcmd

/-! ## SHA-256 (model of Go crypto/sha256, used by readSeekerSHA256) -/

namespace Sha256

/-- The modulus 2^32 for 32-bit words. -/
def M32 : Nat := 4294967296

/-- Right rotation of a 32-bit word. -/
def rotr (x n : Nat) : Nat := ((x >>> n) ||| (x <<< (32 - n))) % M32

/-- Bitwise complement of a 32-bit word. -/
def compl32 (x : Nat) : Nat := 4294967295 ^^^ x

def ch (x y z : Nat) : Nat := (x &&& y) ^^^ (compl32 x &&& z)

def maj (x y z : Nat) : Nat := (x &&& y) ^^^ (x &&& z) ^^^ (y &&& z)

def bigSigma0 (x : Nat) : Nat := rotr x 2 ^^^ rotr x 13 ^^^ rotr x 22

def bigSigma1 (x : Nat) : Nat := rotr x 6 ^^^ rotr x 11 ^^^ rotr x 25

def smallSigma0 (x : Nat) : Nat := rotr x 7 ^^^ rotr x 18 ^^^ (x >>> 3)

def smallSigma1 (x : Nat) : Nat := rotr x 17 ^^^ rotr x 19 ^^^ (x >>> 10)

/-- The 64 SHA-256 round constants. -/
def K : List Nat :=
  [1116352408, 1899447441, 3049323471, 3921009573, 961987163, 1508970993,
   2453635748, 2870763221, 3624381080, 310598401, 607225278, 1426881987,
   1925078388, 2162078206, 2614888103, 3248222580, 3835390401, 4022224774,
   264347078, 604807628, 770255983, 1249150122, 1555081692, 1996064986,
   2554220882, 2821834349, 2952996808, 3210313671, 3336571891, 3584528711,
   113926993, 338241895, 666307205, 773529912, 1294757372, 1396182291,
   1695183700, 1986661051, 2177026350, 2456956037, 2730485921, 2820302411,
   3259730800, 3345764771, 3516065817, 3600352804, 4094571909, 275423344,
   430227734, 506948616, 659060556, 883997877, 958139571, 1322822218,
   1537002063, 1747873779, 1955562222, 2024104815, 2227730452, 2361852424,
   2428436474, 2756734187, 3204031479, 3329325298]

/-- Running state of the hash: eight 32-bit words. -/
structure St where
  h0 : Nat
  h1 : Nat
  h2 : Nat
  h3 : Nat
  h4 : Nat
  h5 : Nat
  h6 : Nat
  h7 : Nat

/-- SHA-256 initial hash value. -/
def initSt : St :=
  ⟨1779033703, 3144134277, 1013904242, 2773480762, 1359893119, 2600822924, 528734635, 1541459225⟩

/-- Extend the 16 message words of a block to the 64-entry message schedule. -/
def sched (ws : List Nat) : List Nat :=
  (List.range 48).foldl
    (fun acc _ =>
      let t := acc.length
      let v := (smallSigma1 (acc.getD (t - 2) 0) + acc.getD (t - 7) 0 +
                smallSigma0 (acc.getD (t - 15) 0) + acc.getD (t - 16) 0) % M32
      acc ++ [v])
    ws

/-- One round of the compression function on the working variables a..h. -/
def round (t : St) (kw : Nat × Nat) : St :=
  let t1 := (t.h7 + bigSigma1 t.h4 + ch t.h4 t.h5 t.h6 + kw.1 + kw.2) % M32
  let t2 := (bigSigma0 t.h0 + maj t.h0 t.h1 t.h2) % M32
  ⟨(t1 + t2) % M32, t.h0, t.h1, t.h2, (t.h3 + t1) % M32, t.h4, t.h5, t.h6⟩

/-- Compress one 16-word block into the running state. -/
def compressBlock (s : St) (block : List Nat) : St :=
  let r := ((K.zip (sched block)).foldl round s)
  ⟨(s.h0 + r.h0) % M32, (s.h1 + r.h1) % M32, (s.h2 + r.h2) % M32, (s.h3 + r.h3) % M32,
   (s.h4 + r.h4) % M32, (s.h5 + r.h5) % M32, (s.h6 + r.h6) % M32, (s.h7 + r.h7) % M32⟩

/-- Big-endian 8-byte encoding of a length in bits. -/
def be64 (n : Nat) : List Nat :=
  [(n >>> 56) % 256, (n >>> 48) % 256, (n >>> 40) % 256, (n >>> 32) % 256,
   (n >>> 24) % 256, (n >>> 16) % 256, (n >>> 8) % 256, n % 256]

/-- Big-endian 4-byte encoding of a 32-bit word. -/
def wordBE (n : Nat) : List Nat :=
  [(n >>> 24) % 256, (n >>> 16) % 256, (n >>> 8) % 256, n % 256]

/-- SHA-256 padding: append 0x80, zeros to 56 mod 64, then the bit length. -/
def padMessage (msg : List Nat) : List Nat :=
  let L := msg.length
  let z := (119 - (L % 64)) % 64
  msg ++ [128] ++ List.replicate z 0 ++ be64 (L * 8)

/-- Group bytes into big-endian 32-bit words. -/
def bytesToWords : List Nat → List Nat
  | a :: b :: c :: d :: rest => (a * 16777216 + b * 65536 + c * 256 + d) :: bytesToWords rest
  | _ => []

/-- Split a word list into `n` successive 16-word blocks. -/
def chunksAux : Nat → List Nat → List (List Nat)
  | 0, _ => []
  | n + 1, ws => ws.take 16 :: chunksAux n (ws.drop 16)

/-- SHA-256 of a byte sequence, as a 32-byte digest. -/
def sha256 (msg : List Nat) : List Nat :=
  let words := bytesToWords (padMessage msg)
  let final := (chunksAux (words.length / 16) words).foldl compressBlock initSt
  wordBE final.h0 ++ wordBE final.h1 ++ wordBE final.h2 ++ wordBE final.h3 ++
  wordBE final.h4 ++ wordBE final.h5 ++ wordBE final.h6 ++ wordBE final.h7

end Sha256

/-! ## Content hasher: readSeekerSHA256

A `ReadSeeker` is a byte source with a current read position.  `io.Copy`
reads from the current position to the end of the source; its possible
failure is an oracle (`CopyOutcome`), as is the failure of the final
`Seek(0, 0)`. -/

/-- A seekable byte source: content plus current read position. -/
structure ReadSeeker where
  content : List Nat
  pos : Nat

/-- Oracle for the behaviour of `io.Copy` from the source into the hasher:
either it reads everything, or I/O fails after the position has advanced to
byte offset `k`. -/
inductive CopyOutcome where
  | ok : CopyOutcome
  | errAt (k : Nat) (msg : String) : CopyOutcome

/-- Model of `io.Copy(hasher, r)`: on success the position moves to the end
and the bytes from the starting position onward have been hashed; on failure
the position is left wherever the read stopped. -/
def ioCopyHash (r : ReadSeeker) (c : CopyOutcome) : ReadSeeker × Except String (List Nat) :=
  match c with
  | .ok => ({ r with pos := r.content.length }, .ok (r.content.drop r.pos))
  | .errAt k m => ({ r with pos := k }, .error m)

/-- Model of `readSeekerSHA256`: hash the remaining content with `io.Copy`,
then seek back to the start, then return the digest.  `seekOk` is the oracle
for whether `r.Seek(0, 0)` succeeds. -/
def readSeekerSHA256 (r : ReadSeeker) (c : CopyOutcome) (seekOk : Bool) :
    ReadSeeker × Except String (List Nat) :=
  match ioCopyHash r c with
  | (r1, .error m) => (r1, .error m)
  | (r1, .ok bytes) =>
    if seekOk then ({ r1 with pos := 0 }, .ok (Sha256.sha256 bytes))
    else (r1, .error "seek failed")

/-! ## Go string helpers -/

/-- strings.HasPrefix from the Go standard library:
`HasPrefix(s, pre) = s[0:len(pre)] == pre` (when long enough). -/
def hasPrefixStr (s pre : String) : Bool := s.take pre.length == pre

/-- strings.TrimPrefix from the Go standard library. -/
def trimPrefixStr (pre s : String) : String :=
  if hasPrefixStr s pre then s.drop pre.length else s

/-! ## Registry digest resolver

`Reference` models a normalized docker image reference
(docker/distribution `reference.Named`): a registry domain, a repository
path, and optional tag and digest qualifiers.  The network is an oracle
mapping request URLs to responses. -/

/-- A normalized docker image reference. -/
structure Reference where
  domain : String
  path : String
  tag : Option String
  digest : Option String

/-- reference.Named.Name(): domain-qualified repository name. -/
def Reference.name (r : Reference) : String := r.domain ++ "/" ++ r.path

/-- reference.TagNameOnly: qualify a bare name (no tag, no digest) with the
"latest" tag; leave any other reference unchanged. -/
def tagNameOnly (r : Reference) : Reference :=
  match r.tag, r.digest with
  | none, none => { r with tag := some "latest" }
  | _, _ => r

/-- referenceTagOrDigest from the source: after TagNameOnly, a tagged
reference yields its tag, otherwise a canonical reference yields its digest.
(The Go code panics when neither is present; after TagNameOnly that case is
unreachable, and the model returns "".) -/
def referenceTagOrDigest (r : Reference) : String :=
  let r := tagNameOnly r
  match r.tag with
  | some t => t
  | none =>
    match r.digest with
    | some d => d
    | none => ""

/-- registryEndpointForReference from the source. -/
def registryEndpointForReference (r : Reference) : String :=
  let h := if r.domain == "docker.io" then "registry-1.docker.io" else r.domain
  "https://" ++ h ++ "/v2/"

/-- The parts of an HTTP response inspected by the resolver. -/
structure HttpResponse where
  statusCode : Nat
  /-- the Docker-Distribution-Api-Version response header -/
  apiVersion : String
  /-- the Docker-Content-Digest response header -/
  contentDigest : String

/-- Oracle for the registry HTTP exchanges: the outcome of building the
request authorizer (registryAuthorizer), and the response (or network error)
for each HEAD request URL issued through dockerRegistryDo. -/
structure RegistryOracle where
  authorizer : Except String Unit
  head : String → Except String HttpResponse

/-- The manifest HEAD request URL issued by imageDigestForReference for a
given tag or digest: `endpoint + path + "/manifests/" + t`. -/
def manifestUrl (r : Reference) (t : String) : String :=
  registryEndpointForReference r ++ r.path ++ "/manifests/" ++ t

/-- Model of imageDigestForReference.  Returns the list of manifest HEAD
request URLs issued, in order, together with the result: the resolved digest
or a fatal error. -/
def imageDigestForReference (o : RegistryOracle) (r : Reference) :
    List String × Except String String :=
  match o.authorizer with
  | .error m => ([], .error m)
  | .ok _ =>
    let url1 := manifestUrl r (referenceTagOrDigest r)
    match o.head url1 with
    | .error m => ([url1], .error m)
    | .ok resp =>
      if resp.statusCode != 200 then
        ([url1], .error "cannot get information")
      else if !hasPrefixStr resp.apiVersion "registry/2." then
        ([url1], .error "incompatible registry version")
      else if resp.contentDigest == "" then
        ([url1], .error "no digest in response")
      else
        match r.digest with
        | some d =>
          -- The image is referred to by a digest and that works, so we're
          -- all good: return the digest from the reference itself.
          ([url1], .ok d)
        | none =>
          -- The image is referred to by a tag; check that the registry can
          -- serve information on the image by the digest just discovered.
          let url2 := manifestUrl r resp.contentDigest
          match o.head url2 with
          | .error m => ([url1, url2], .error m)
          | .ok resp2 =>
            if resp2.statusCode != 200 then
              ([url1, url2], .error "cannot verify image digest")
            else
              ([url1, url2], .ok resp.contentDigest)

/-! ## Resumable upload engine

`uploadFileResource` is embedded as a function from an oracle (supplying
the outcomes of filesystem, cache, and charm-store operations) to an
explicit event trace plus the call's result.  External collaborators follow
their interface contracts: the csclient transfer calls
(`ResumeUploadResource` / `UploadResource`) report a store-assigned upload
id through the progress-display callback at most once per call
(`TransferOutcome.assigned`), and the UploadIdCache operations are modelled
by their outcomes only, since the upload code never inspects them. -/

/-- Distinguished error kinds of the charm store upload API
(`UploadError.notFound` is csclient.ErrUploadNotFound). -/
inductive UploadError where
  | notFound
  | other (msg : String)
deriving DecidableEq

/-- Outcome of one csclient transfer call: the upload id the store
allocated during the call and reported through the caller's callback
(at most one per call; `none` when no id was allocated), and the
call's result. -/
structure TransferOutcome where
  assigned : Option String
  result : Except UploadError Int

/-- Outcome of UploadIdCache.Lookup: a cached entry's upload id, the
distinguished errCacheEntryNotFound, or another cache I/O error. -/
inductive LookupResult where
  | found (uploadId : String)
  | notFound
  | ioError (msg : String)

/-- Oracle fixing the behaviour of every external operation performed by one
uploadFileResource invocation. -/
structure FileUploadOracle where
  /-- os.Open + Stat, giving the file size -/
  openStat : Except String Int
  /-- UploadIdCache.RemoveExpiredEntries -/
  sweepResult : Except String Unit
  /-- readSeekerSHA256 of the file contents -/
  hashResult : Except String (List Nat)
  /-- UploadIdCache.Lookup -/
  lookupResult : LookupResult
  /-- csclient ResumeUploadResource, as a function of the uploadId argument -/
  resumeOutcome : String → TransferOutcome
  /-- csclient UploadResource -/
  freshOutcome : TransferOutcome
  /-- UploadIdCache.Update, as a function of the assigned uploadId -/
  updateResult : String → Except String Unit
  /-- UploadIdCache.Remove -/
  removeResult : Except String Unit

/-- Events observable during one uploadFileResource invocation. -/
inductive Ev where
  | sweep
  | hashContent
  | cacheLookup
  | cacheUpdate (uploadId : String)
  | cacheRemove
  | netResume (uploadId : String)
  | netFresh
  | logged (msg : String)
deriving DecidableEq

/-- Trace of the expiry sweep: the sweep itself, plus a logged warning when
it fails (the error is swallowed). -/
def sweepEvs (o : FileUploadOracle) : List Ev :=
  Ev.sweep :: (match o.sweepResult with
    | .ok _ => []
    | .error m => [Ev.logged ("cannot remove expired uploadId cache entries: " ++ m)])

/-- The cache phase of uploadFileResource (the body of the
`if p.cachePath != ""` block): sweep expired entries, hash the content,
look up a pending upload for the same content.  Returns the uploadId to
resume ("" when there is none); a hash failure or a non-not-found cache
lookup error aborts the call. -/
def cachePhase (o : FileUploadOracle) : List Ev × Except UploadError String :=
  let evs := sweepEvs o
  match o.hashResult with
  | .error m => (evs ++ [Ev.hashContent], .error (.other m))
  | .ok _ =>
    match o.lookupResult with
    | .found id => (evs ++ [Ev.hashContent, Ev.cacheLookup], .ok id)
    | .notFound => (evs ++ [Ev.hashContent, Ev.cacheLookup], .ok "")
    | .ioError m => (evs ++ [Ev.hashContent, Ev.cacheLookup], .error (.other m))

/-- The progress-display uploadId callback passed to newProgressDisplay:
when the store assigns an id during a transfer call, update the cache entry
(only when a cache is configured), logging and swallowing update errors. -/
def callbackEvs (cacheOn : Bool) (o : FileUploadOracle) : Option String → List Ev
  | none => []
  | some id =>
    if cacheOn then
      Ev.cacheUpdate id :: (match o.updateResult id with
        | .ok _ => []
        | .error m => [Ev.logged ("cannot update uploadId cache: " ++ m)])
    else []

/-- Completion bookkeeping: remove the now-unusable cache entry (only when a
cache is configured), logging and swallowing removal errors. -/
def finishEvs (cacheOn : Bool) (o : FileUploadOracle) : List Ev :=
  if cacheOn then
    Ev.cacheRemove :: (match o.removeResult with
      | .ok _ => []
      | .error m => [Ev.logged ("cannot remove uploadId cache entry: " ++ m)])
  else []

/-- The transfer phase of uploadFileResource: one ResumeUploadResource call
with the cached uploadId (which behaves as a fresh upload when the id is
empty); if it fails with ErrUploadNotFound, one fallback UploadResource
call; any remaining error is fatal (wrapped in Go with a "can't upload
resource" note); on success, remove the cache entry. -/
def transferPhase (cacheOn : Bool) (o : FileUploadOracle) (uploadId : String) :
    List Ev × Except UploadError Int :=
  let ro := o.resumeOutcome uploadId
  let evs := Ev.netResume uploadId :: callbackEvs cacheOn o ro.assigned
  match ro.result with
  | .ok rev => (evs ++ finishEvs cacheOn o, .ok rev)
  | .error .notFound =>
    let fo := o.freshOutcome
    let evs2 := evs ++ Ev.logged "previous upload seems to have expired; restarting." ::
      Ev.netFresh :: callbackEvs cacheOn o fo.assigned
    match fo.result with
    | .ok rev => (evs2 ++ finishEvs cacheOn o, .ok rev)
    | .error e => (evs2, .error e)
  | .error (.other m) => (evs, .error (.other m))

/-- Model of uploadFileResource: open and stat the file; when a cache path
is configured, run the cache phase; then run the transfer phase (with an
empty uploadId and no cache bookkeeping when no cache path is configured).
Returns the event trace and the revision number or error. -/
def uploadFileResource (cachePath : String) (o : FileUploadOracle) :
    List Ev × Except UploadError Int :=
  match o.openStat with
  | .error m => ([], .error (.other m))
  | .ok _ =>
    if cachePath == "" then
      transferPhase false o ""
    else
      match cachePhase o with
      | (evs, .error e) => (evs, .error e)
      | (evs, .ok uploadId) =>
        let r := transferPhase true o uploadId
        (evs ++ r.1, r.2)

/-! ## Docker resource dispatcher -/

/-- Events observable during one uploadDockerResource invocation. -/
inductive DEv where
  /-- reference.ParseNormalizedNamed applied to the given string -/
  | parseRef (s : String)
  /-- a manifest HEAD request to the external registry -/
  | headReq (url : String)
  /-- DockerResourceUploadInfo request to the charm store -/
  | uploadInfoReq
  /-- ImageTag on the local docker daemon -/
  | imageTag
  /-- ImagePush on the local docker daemon (transfers the image bytes) -/
  | imagePush
  /-- AddDockerResource registration with the given name hint and digest -/
  | addDockerResource (hint digest : String)
deriving DecidableEq

/-- The upload credentials returned by DockerResourceUploadInfo. -/
structure UploadInfo where
  imageName : String
  username : String
  password : String

/-- Oracle fixing the behaviour of the external operations performed by one
uploadDockerResource invocation. -/
structure DockerOracle where
  /-- reference.ParseNormalizedNamed -/
  parseNormalizedNamed : String → Except String Reference
  /-- the registry network, for the external-image path -/
  registry : RegistryOracle
  /-- charm store DockerResourceUploadInfo -/
  uploadInfo : Except String UploadInfo
  /-- dockerclient.NewEnvClient -/
  newEnvClient : Except String Unit
  /-- local docker ImageTag -/
  imageTag : Except String Unit
  /-- local docker ImagePush -/
  imagePush : Except String Unit
  /-- outcome of streaming the push progress: the digest reported in the
  final status ("" when none appeared), or a stream error -/
  streamResult : Except String String
  /-- charm store AddDockerResource, as a function of name hint and digest -/
  addDockerResource : String → String → Except String Int

/-- The external-image path (uploadExternalDockerResource): resolve the
digest from the image's own registry and register it, with the parsed
reference name as hint, with the charm store; no image bytes flow through
the client. -/
def uploadExternalDockerResource (o : DockerOracle) (r : Reference) :
    List DEv × Except String Int :=
  let dres := imageDigestForReference o.registry r
  let evs := dres.1.map DEv.headReq
  match dres.2 with
  | .error m => (evs, .error m)
  | .ok digest =>
    let evs2 := evs ++ [DEv.addDockerResource (Reference.name r) digest]
    match o.addDockerResource (Reference.name r) digest with
    | .error m => (evs2, .error ("cannot add docker resource: " ++ m))
    | .ok rev => (evs2, .ok rev)

/-- The local-image path of uploadDockerResource: fetch upload credentials
from the charm store, tag the image in the local docker daemon, push it to
the charm store's registry (transferring the image bytes), extract the
digest from the push progress stream, and register it with an empty name
hint. -/
def uploadLocalDockerResource (o : DockerOracle) (_r : Reference) :
    List DEv × Except String Int :=
  match o.uploadInfo with
  | .error m => ([DEv.uploadInfoReq], .error ("cannot get upload info: " ++ m))
  | .ok _ =>
    match o.newEnvClient with
    | .error m => ([DEv.uploadInfoReq], .error ("cannot make docker client: " ++ m))
    | .ok _ =>
      match o.imageTag with
      | .error m => ([DEv.uploadInfoReq, DEv.imageTag],
          .error ("cannot tag image in local docker: " ++ m))
      | .ok _ =>
        match o.imagePush with
        | .error m => ([DEv.uploadInfoReq, DEv.imageTag, DEv.imagePush],
            .error ("cannot push image: " ++ m))
        | .ok _ =>
          let evs := [DEv.uploadInfoReq, DEv.imageTag, DEv.imagePush]
          match o.streamResult with
          | .error m => (evs, .error ("failed to upload: " ++ m))
          | .ok digest =>
            if digest == "" then (evs, .error "no digest found upload response")
            else
              let evs2 := evs ++ [DEv.addDockerResource "" digest]
              match o.addDockerResource "" digest with
              | .error m => (evs2, .error ("cannot add docker resource: " ++ m))
              | .ok rev => (evs2, .ok rev)

/-- Model of uploadDockerResource: strip the "external::" marker, parse the
remainder as a normalized image reference, and dispatch on whether the
marker was present (detected, as in the source, by the length of the
trimmed string differing from the original). -/
def uploadDockerResource (o : DockerOracle) (ref : String) :
    List DEv × Except String Int :=
  let refStr := trimPrefixStr "external::" ref
  match o.parseNormalizedNamed refStr with
  | .error m => ([DEv.parseRef refStr], .error ("invalid image name: " ++ m))
  | .ok r =>
    if refStr.length != ref.length then
      let res := uploadExternalDockerResource o r
      (DEv.parseRef refStr :: res.1, res.2)
    else
      let res := uploadLocalDockerResource o r
      (DEv.parseRef refStr :: res.1, res.2)

/-! ## Trace utilities -/

/-- Number of events in a trace satisfying a predicate. -/
def countP {α : Type} (p : α → Bool) (l : List α) : Nat := (l.filter p).length

/-- Network transfer events of the file-upload engine. -/
def isNet : Ev → Bool
  | .netResume _ => true
  | .netFresh => true
  | _ => false

def isResume : Ev → Bool
  | .netResume _ => true
  | _ => false

def isFresh : Ev → Bool
  | .netFresh => true
  | _ => false

def isLookup : Ev → Bool
  | .cacheLookup => true
  | _ => false

def isUpdate : Ev → Bool
  | .cacheUpdate _ => true
  | _ => false

def isRemove : Ev → Bool
  | .cacheRemove => true
  | _ => false

def isHash : Ev → Bool
  | .hashContent => true
  | _ => false

/-- Any access to the persisted upload-id cache. -/
def isCacheEv : Ev → Bool
  | .sweep => true
  | .cacheLookup => true
  | .cacheUpdate _ => true
  | .cacheRemove => true
  | _ => false

/-! ## Concrete references and oracles for closed runs -/

/-- A tag-only reference on an example registry. -/
def tagRef : Reference := ⟨"example.com", "my/repo", some "v1", none⟩

/-- A digest-qualified (canonical) reference on an example registry. -/
def canonRef : Reference := ⟨"example.com", "my/repo", none, some "sha256:aaa"⟩

/-- A registry whose HEAD-by-tag response reports digest sha256:aaa but
whose HEAD-by-digest response reports sha256:bbb; every response has status
200, a v2 API version, and a non-empty digest. -/
def mismatchRegistry : RegistryOracle where
  authorizer := .ok ()
  head := fun url =>
    if url == "https://example.com/v2/my/repo/manifests/v1" then
      .ok ⟨200, "registry/2.0", "sha256:aaa"⟩
    else
      .ok ⟨200, "registry/2.0", "sha256:bbb"⟩

/-- A registry serving the same well-formed response everywhere. -/
def okRegistry : RegistryOracle where
  authorizer := .ok ()
  head := fun _ => .ok ⟨200, "registry/2.0", "sha256:aaa"⟩

/-- A registry reporting an incompatible API version. -/
def badVersionRegistry : RegistryOracle where
  authorizer := .ok ()
  head := fun _ => .ok ⟨200, "registry/1.0", "sha256:aaa"⟩

/-- A registry whose digest header differs from canonRef's own digest. -/
def otherDigestRegistry : RegistryOracle where
  authorizer := .ok ()
  head := fun _ => .ok ⟨200, "registry/2.0", "sha256:zzz"⟩

/-- The result of uploadFileResource as a function of only the operation
outcomes that can influence it: open/stat, content hash, cache lookup, and
the two transfer calls.  The bookkeeping outcomes (expiry sweep, cache
update, cache removal) do not appear. -/
def uploadResultSpec (cachePath : String) (o : FileUploadOracle) : Except UploadError Int :=
  match o.openStat with
  | .error m => .error (.other m)
  | .ok _ =>
    let pre : Except UploadError String :=
      if cachePath == "" then .ok ""
      else
        match o.hashResult with
        | .error m => .error (.other m)
        | .ok _ =>
          match o.lookupResult with
          | .found id => .ok id
          | .notFound => .ok ""
          | .ioError m => .error (.other m)
    match pre with
    | .error e => .error e
    | .ok id =>
      match (o.resumeOutcome id).result with
      | .ok rev => .ok rev
      | .error .notFound =>
        match o.freshOutcome.result with
        | .ok rev => .ok rev
        | .error e => .error e
      | .error (.other m) => .error (.other m)

/-- Oracle for a clean cache-hit run: the store accepts the resumed upload
(allocating no new id), and all bookkeeping succeeds. -/
def resumeOkOracle : FileUploadOracle where
  openStat := .ok 100
  sweepResult := .ok ()
  hashResult := .ok [1, 2]
  lookupResult := .found "id-1"
  resumeOutcome := fun _ => ⟨none, .ok 3⟩
  freshOutcome := ⟨some "id-2", .ok 4⟩
  updateResult := fun _ => .ok ()
  removeResult := .ok ()

/-- Oracle for a run whose cached upload id the store no longer recognizes:
the resume attempt reports the distinguished not-found error and the fresh
attempt succeeds, allocating a new id. -/
def resumeNotFoundOracle : FileUploadOracle :=
  { resumeOkOracle with resumeOutcome := fun _ => ⟨none, .error .notFound⟩ }

/-- Oracle whose cache lookup fails with a non-not-found I/O error. -/
def lookupErrorOracle : FileUploadOracle :=
  { resumeOkOracle with lookupResult := .ioError "disk failure" }

/-- Oracle whose cache expiry sweep fails. -/
def sweepErrorOracle : FileUploadOracle :=
  { resumeOkOracle with sweepResult := .error "boom" }

/-- Image-byte transfer events of the docker path. -/
def isPush : DEv → Bool
  | .imagePush => true
  | _ => false

/-- Store registration events of the docker path. -/
def isRegister : DEv → Bool
  | .addDockerResource _ _ => true
  | _ => false

/-- A docker oracle for the external-image runs: parsing recognizes the
example reference, the registry is the consistent okRegistry, and the store
accepts the registration. -/
def externalDockerOracle : DockerOracle where
  parseNormalizedNamed := fun s =>
    if s == "example.com/my/repo:v1" then .ok tagRef else .error "bad name"
  registry := okRegistry
  uploadInfo := .error "unused"
  newEnvClient := .ok ()
  imageTag := .ok ()
  imagePush := .ok ()
  streamResult := .ok "sha256:push"
  addDockerResource := fun _ _ => .ok 9

theorem countP_append {α : Type} (p : α → Bool) (a b : List α) :
    countP p (a ++ b) = countP p a + countP p b := by
  simp [countP, List.filter_append]

theorem countP_nil {α : Type} (p : α → Bool) : countP p ([] : List α) = 0 := rfl

theorem countP_cons_true {α : Type} {p : α → Bool} {e : α} (h : p e = true) (l : List α) :
    countP p (e :: l) = countP p l + 1 := by
  simp [countP, List.filter_cons, h]

theorem countP_cons_false {α : Type} {p : α → Bool} {e : α} (h : p e = false) (l : List α) :
    countP p (e :: l) = countP p l := by
  simp [countP, List.filter_cons, h]

/-- Splitting a trace `A ++ B` at an occurrence of an event `e` that cannot
lie in `B`: the part left of `e` counts no more `p`-events than `A`. -/
theorem countP_split_left {α : Type} (p q : α → Bool) :
    ∀ (A : List α) {B l1 l2 : List α} {e : α},
      A ++ B = l1 ++ e :: l2 → q e = true → countP q B = 0 →
      countP p l1 ≤ countP p A := by
  intro A
  induction A with
  | nil =>
    intro B l1 l2 e hsplit hq hB
    exfalso
    rw [List.nil_append] at hsplit
    rw [hsplit, countP_append, countP_cons_true hq] at hB
    omega
  | cons a A ih =>
    intro B l1 l2 e hsplit hq hB
    cases l1 with
    | nil => simp [countP_nil]
    | cons b l1 =>
      rw [List.cons_append, List.cons_append] at hsplit
      have hab : a = b := (List.cons.injEq ..).mp hsplit |>.1
      have htail : A ++ B = l1 ++ e :: l2 := (List.cons.injEq ..).mp hsplit |>.2
      have := ih htail hq hB
      subst hab
      cases h : p a with
      | true => rw [countP_cons_true h, countP_cons_true h]; omega
      | false => rw [countP_cons_false h, countP_cons_false h]; omega

/-- Splitting a trace `A ++ B` at an occurrence of an event `e` that cannot
lie in `A`: the part left of `e` counts at least the `p`-events of `A`, and
the part right of `e` counts no more `p`-events than `B`. -/
theorem countP_split_right {α : Type} (p q : α → Bool) :
    ∀ (A : List α) {B l1 l2 : List α} {e : α},
      A ++ B = l1 ++ e :: l2 → q e = true → countP q A = 0 →
      countP p A ≤ countP p l1 ∧ countP p l2 ≤ countP p B := by
  intro A
  induction A with
  | nil =>
    intro B l1 l2 e hsplit hq _
    rw [List.nil_append] at hsplit
    refine ⟨by simp [countP_nil], ?_⟩
    rw [hsplit, countP_append]
    cases h : p e with
    | true => rw [countP_cons_true h]; omega
    | false => rw [countP_cons_false h]; omega
  | cons a A ih =>
    intro B l1 l2 e hsplit hq hA
    have hqa : q a = false := by
      cases h : q a with
      | true => rw [countP_cons_true h] at hA; omega
      | false => rfl
    rw [countP_cons_false hqa] at hA
    cases l1 with
    | nil =>
      exfalso
      rw [List.nil_append, List.cons_append] at hsplit
      have : a = e := (List.cons.injEq ..).mp hsplit |>.1
      rw [this, hq] at hqa
      exact Bool.true_eq_false.mp hqa
    | cons b l1 =>
      rw [List.cons_append, List.cons_append] at hsplit
      have hab : a = b := (List.cons.injEq ..).mp hsplit |>.1
      have htail : A ++ B = l1 ++ e :: l2 := (List.cons.injEq ..).mp hsplit |>.2
      obtain ⟨h1, h2⟩ := ih htail hq hA
      subst hab
      refine ⟨?_, h2⟩
      cases h : p a with
      | true => rw [countP_cons_true h, countP_cons_true h]; omega
      | false => rw [countP_cons_false h, countP_cons_false h]; omega

/-! ## General lemmas -/

theorem wordBE_length (n : Nat) : (Sha256.wordBE n).length = 4 := rfl

/-- Every SHA-256 digest has exactly 32 bytes. -/
theorem sha256_length (msg : List Nat) : (Sha256.sha256 msg).length = 32 := by
  simp [Sha256.sha256, List.length_append, wordBE_length]

/-! ## Facts about the Go string helpers -/

theorem hasPrefixStr_iff (s pre : String) :
    hasPrefixStr s pre = true ↔ pre.data <+: s.data := by
  rw [hasPrefixStr, beq_iff_eq, String.ext_iff, String.data_take]
  constructor
  · intro h
    rw [List.prefix_iff_eq_take]
    exact h.symm
  · intro h
    exact (List.prefix_iff_eq_take.mp h).symm

theorem hasPrefixStr_length_le {s pre : String} (h : hasPrefixStr s pre = true) :
    pre.length ≤ s.length :=
  ((hasPrefixStr_iff s pre).mp h).length_le

theorem strLength_drop (s : String) (n : Nat) : (s.drop n).length = s.length - n := by
  show (s.drop n).data.length = s.data.length - n
  rw [String.data_drop]
  simp

/-- The dispatch condition of uploadDockerResource, `len(refStr) != len(ref)`
after TrimPrefix, holds exactly when the reference begins with the
"external::" marker. -/
theorem trimPrefixStr_length_ne_iff (s : String) :
    ((trimPrefixStr "external::" s).length != s.length) = hasPrefixStr s "external::" := by
  cases h : hasPrefixStr s "external::" with
  | false => simp [trimPrefixStr, h]
  | true =>
    have hle : ("external::" : String).length ≤ s.length := hasPrefixStr_length_le h
    have h10 : ("external::" : String).length = 10 := rfl
    rw [h10] at hle
    simp only [trimPrefixStr, h, if_true, strLength_drop, h10, bne_iff_ne, ne_eq,
      decide_eq_true_eq]
    omega

/-! ## Registry digest resolver claims -/

/-- C4: digest resolution fails fatally, with no retry and without returning
a digest, whenever the manifest HEAD response has a status other than 200,
or the API version response header does not indicate a v2-compatible
registry, or the digest response header is empty: the run issues exactly the
one HEAD request and returns an error. -/
theorem digestResolutionFatalOnBadResponse (o : RegistryOracle) (r : Reference)
    (resp : HttpResponse)
    (hauth : o.authorizer = .ok ())
    (hhead : o.head (manifestUrl r (referenceTagOrDigest r)) = .ok resp)
    (hbad : resp.statusCode ≠ 200 ∨ hasPrefixStr resp.apiVersion "registry/2." = false ∨
      resp.contentDigest = "") :
    (∃ m, (imageDigestForReference o r).2 = .error m) ∧
      (imageDigestForReference o r).1 = [manifestUrl r (referenceTagOrDigest r)] := by
  simp only [imageDigestForReference, hauth, hhead]
  rcases hbad with h | h | h
  · have hb : (resp.statusCode != 200) = true := by simp [bne_iff_ne, h]
    simp [hb]
  · cases hsc : (resp.statusCode != 200) with
    | true => simp [hsc]
    | false => simp [hsc, h]
  · cases hsc : (resp.statusCode != 200) with
    | true => simp [hsc]
    | false =>
      cases hv : hasPrefixStr resp.apiVersion "registry/2." with
      | false => simp [hsc, hv]
      | true => simp [hsc, hv, h]

/-- C4 witness: a concrete run against a registry reporting API version
"registry/1.0" issues one HEAD request and fails. -/
theorem digestResolutionFatalOnBadResponse_witness :
    (∃ m, (imageDigestForReference badVersionRegistry tagRef).2 = .error m) ∧
      (imageDigestForReference badVersionRegistry tagRef).1 =
        [manifestUrl tagRef (referenceTagOrDigest tagRef)] :=
  digestResolutionFatalOnBadResponse badVersionRegistry tagRef
    ⟨200, "registry/1.0", "sha256:aaa"⟩ rfl rfl (Or.inr (Or.inl (by decide)))

/-- C10: for a reference already carrying a digest, the resolver returns the
digest taken from the reference itself, never the registry's digest response
header, which is only required to be non-empty; no second request is made. -/
theorem canonicalReferenceDigestFromReference (o : RegistryOracle) (r : Reference)
    (d0 : String) (resp : HttpResponse)
    (hdig : r.digest = some d0)
    (hauth : o.authorizer = .ok ())
    (hhead : o.head (manifestUrl r (referenceTagOrDigest r)) = .ok resp)
    (hsc : resp.statusCode = 200)
    (hv : hasPrefixStr resp.apiVersion "registry/2." = true)
    (hne : resp.contentDigest ≠ "") :
    (imageDigestForReference o r).2 = .ok d0 ∧
      (imageDigestForReference o r).1 = [manifestUrl r (referenceTagOrDigest r)] := by
  have h1 : (resp.statusCode != 200) = false := by simp [hsc]
  have h3 : (resp.contentDigest == "") = false := by
    simp only [beq_eq_false_iff_ne, ne_eq]
    exact hne
  simp [imageDigestForReference, hauth, hhead, h1, hv, h3, hdig]

/-- C10 witness: a concrete canonical-reference run against a registry whose
digest header (sha256:zzz) differs from the reference's digest (sha256:aaa)
returns the reference's digest from a single HEAD request. -/
theorem canonicalReferenceDigestFromReference_witness :
    (imageDigestForReference otherDigestRegistry canonRef).2 = .ok "sha256:aaa" ∧
      (imageDigestForReference otherDigestRegistry canonRef).1 =
        [manifestUrl canonRef (referenceTagOrDigest canonRef)] :=
  canonicalReferenceDigestFromReference otherDigestRegistry canonRef "sha256:aaa"
    ⟨200, "registry/2.0", "sha256:zzz"⟩ rfl rfl rfl rfl rfl (by decide)

/-- C2 counterexample: a tag-qualified resolution succeeds even though the
two HEAD responses report different digest values (sha256:aaa by tag,
sha256:bbb by digest): the second response's digest header is never compared
with the first. -/
theorem tagResolutionDigestMismatchStillSucceeds :
    (imageDigestForReference mismatchRegistry tagRef).2 = .ok "sha256:aaa" ∧
      mismatchRegistry.head (manifestUrl tagRef "sha256:aaa") =
        .ok ⟨200, "registry/2.0", "sha256:bbb"⟩ ∧
      ("sha256:bbb" : String) ≠ "sha256:aaa" :=
  ⟨rfl, rfl, by decide⟩

/-- C2 (amended): for a tag-only reference the resolver performs a second
HEAD request using the digest discovered by the first, and succeeds only if
both responses have status 200 (with the first also reporting a v2 API
version and a non-empty digest, which becomes the result); the digest value
reported by the second response is not examined.  For a reference already
carrying a digest, resolution stops after the first HEAD with no second
request. -/
theorem tagResolutionDoubleCheck (o : RegistryOracle) (r : Reference) :
    (∀ d, r.digest = none → (imageDigestForReference o r).2 = .ok d →
      ∃ resp1 resp2,
        o.head (manifestUrl r (referenceTagOrDigest r)) = .ok resp1 ∧
        resp1.statusCode = 200 ∧
        hasPrefixStr resp1.apiVersion "registry/2." = true ∧
        resp1.contentDigest = d ∧
        o.head (manifestUrl r d) = .ok resp2 ∧
        resp2.statusCode = 200 ∧
        (imageDigestForReference o r).1 =
          [manifestUrl r (referenceTagOrDigest r), manifestUrl r d]) ∧
    (∀ d0, r.digest = some d0 → (imageDigestForReference o r).1.length ≤ 1) := by
  constructor
  · intro d hnone
    simp only [imageDigestForReference]
    cases hauth : o.authorizer with
    | error m => simp
    | ok u =>
      simp only []
      cases hhead : o.head (manifestUrl r (referenceTagOrDigest r)) with
      | error m => simp
      | ok resp =>
        cases hsc : (resp.statusCode != 200) with
        | true => simp [hsc]
        | false =>
          cases hv : hasPrefixStr resp.apiVersion "registry/2." with
          | false => simp [hsc, hv]
          | true =>
            cases hz : (resp.contentDigest == "") with
            | true => simp [hsc, hv, hz]
            | false =>
              simp only [hsc, hv, hz, hnone, Bool.not_false, Bool.false_eq_true,
                if_false, if_true, Bool.not_true]
              cases hhead2 : o.head (manifestUrl r resp.contentDigest) with
              | error m => simp [hhead2]
              | ok resp2 =>
                cases hsc2 : (resp2.statusCode != 200) with
                | true => simp [hhead2, hsc2]
                | false =>
                  simp only [hhead2, hsc2, Bool.false_eq_true, if_false]
                  intro hok
                  have hd : resp.contentDigest = d := by simpa using hok
                  subst hd
                  refine ⟨resp, resp2, rfl, ?_, hv, rfl, hhead2, ?_, by simp⟩
                  · simpa using hsc
                  · simpa using hsc2
  · intro d0 hsome
    simp only [imageDigestForReference]
    cases hauth : o.authorizer with
    | error m => simp
    | ok u =>
      simp only []
      cases hhead : o.head (manifestUrl r (referenceTagOrDigest r)) with
      | error m => simp
      | ok resp =>
        cases hsc : (resp.statusCode != 200) with
        | true => simp [hsc]
        | false =>
          cases hv : hasPrefixStr resp.apiVersion "registry/2." with
          | false => simp [hsc, hv]
          | true =>
            cases hz : (resp.contentDigest == "") with
            | true => simp [hsc, hv, hz]
            | false => simp [hsc, hv, hz, hsome]

/-- C2 (amended) witness: a concrete tag-only run against a consistent
registry exhibits the two HEAD requests, and a concrete digest-qualified run
issues at most one request. -/
theorem tagResolutionDoubleCheck_witness :
    (∃ resp1 resp2,
      okRegistry.head (manifestUrl tagRef (referenceTagOrDigest tagRef)) = .ok resp1 ∧
      resp1.statusCode = 200 ∧
      hasPrefixStr resp1.apiVersion "registry/2." = true ∧
      resp1.contentDigest = "sha256:aaa" ∧
      okRegistry.head (manifestUrl tagRef "sha256:aaa") = .ok resp2 ∧
      resp2.statusCode = 200 ∧
      (imageDigestForReference okRegistry tagRef).1 =
        [manifestUrl tagRef (referenceTagOrDigest tagRef), manifestUrl tagRef "sha256:aaa"]) ∧
    (imageDigestForReference okRegistry canonRef).1.length ≤ 1 :=
  ⟨(tagResolutionDoubleCheck okRegistry tagRef).1 "sha256:aaa" rfl rfl,
   (tagResolutionDoubleCheck okRegistry canonRef).2 "sha256:aaa" rfl⟩

/-! ## Trace splitting lemmas -/

theorem no_split_of_countP_zero {α : Type} {q : α → Bool} {tr l1 l2 : List α} {e : α}
    (hq : q e = true) (h0 : countP q tr = 0) (hs : tr = l1 ++ e :: l2) : False := by
  rw [hs, countP_append, countP_cons_true hq] at h0
  omega

/-- If a trace `A ++ B` splits at an event `e` that cannot occur in `A`,
then the split point lies inside `B`. -/
theorem split_in_right {α : Type} (q : α → Bool) :
    ∀ (A : List α) {B l1 l2 : List α} {e : α},
      A ++ B = l1 ++ e :: l2 → q e = true → countP q A = 0 →
      ∃ l1', l1 = A ++ l1' ∧ B = l1' ++ e :: l2 := by
  intro A
  induction A with
  | nil =>
    intro B l1 l2 e hsplit _ _
    exact ⟨l1, by simp, by simpa using hsplit⟩
  | cons a A ih =>
    intro B l1 l2 e hsplit hq hA
    have hqa : q a = false := by
      cases h : q a with
      | true => rw [countP_cons_true h] at hA; omega
      | false => rfl
    rw [countP_cons_false hqa] at hA
    cases l1 with
    | nil =>
      exfalso
      rw [List.nil_append, List.cons_append] at hsplit
      have he : a = e := (List.cons.injEq ..).mp hsplit |>.1
      rw [he, hq] at hqa
      exact Bool.true_eq_false.mp hqa
    | cons b l1 =>
      rw [List.cons_append, List.cons_append] at hsplit
      have hab : a = b := (List.cons.injEq ..).mp hsplit |>.1
      have htail : A ++ B = l1 ++ e :: l2 := (List.cons.injEq ..).mp hsplit |>.2
      subst hab
      obtain ⟨l1', h1, h2⟩ := ih htail hq hA
      exact ⟨l1', by rw [List.cons_append, h1], h2⟩

/-- If a trace `A ++ B` splits at an event `e` that cannot occur in `B`,
then the split point lies inside `A`. -/
theorem split_in_left {α : Type} (q : α → Bool) :
    ∀ (A : List α) {B l1 l2 : List α} {e : α},
      A ++ B = l1 ++ e :: l2 → q e = true → countP q B = 0 →
      ∃ l2', A = l1 ++ e :: l2' ∧ l2 = l2' ++ B := by
  intro A
  induction A with
  | nil =>
    intro B l1 l2 e hsplit hq hB
    exact (no_split_of_countP_zero hq hB (by simpa using hsplit)).elim
  | cons a A ih =>
    intro B l1 l2 e hsplit hq hB
    cases l1 with
    | nil =>
      rw [List.nil_append, List.cons_append] at hsplit
      have he : a = e := (List.cons.injEq ..).mp hsplit |>.1
      have htail : A ++ B = l2 := (List.cons.injEq ..).mp hsplit |>.2
      exact ⟨A, by rw [List.nil_append, he], htail.symm⟩
    | cons b l1 =>
      rw [List.cons_append, List.cons_append] at hsplit
      have hab : a = b := (List.cons.injEq ..).mp hsplit |>.1
      have htail : A ++ B = l1 ++ e :: l2 := (List.cons.injEq ..).mp hsplit |>.2
      subst hab
      obtain ⟨l2', h1, h2⟩ := ih htail hq hB
      exact ⟨l2', by rw [List.cons_append, h1], h2⟩

/-! ## Engine phase lemmas -/

theorem countP_sweepEvs_zero (p : Ev → Bool) (hl : ∀ m, p (Ev.logged m) = false)
    (hs : p Ev.sweep = false) (o : FileUploadOracle) : countP p (sweepEvs o) = 0 := by
  unfold sweepEvs
  cases o.sweepResult <;> simp [countP, List.filter, hs, hl]

theorem countP_cachePhase_zero (p : Ev → Bool) (hl : ∀ m, p (Ev.logged m) = false)
    (hs : p Ev.sweep = false) (hh : p Ev.hashContent = false) (hk : p Ev.cacheLookup = false)
    (o : FileUploadOracle) : countP p (cachePhase o).1 = 0 := by
  unfold cachePhase
  cases o.hashResult with
  | error m =>
    rw [countP_append, countP_sweepEvs_zero p hl hs]
    simp [countP, List.filter, hh]
  | ok h =>
    cases o.lookupResult <;>
      (rw [countP_append, countP_sweepEvs_zero p hl hs]; simp [countP, List.filter, hh, hk])

theorem countP_cachePhase_lookup_le (o : FileUploadOracle) :
    countP isLookup (cachePhase o).1 ≤ 1 := by
  unfold cachePhase
  cases o.hashResult with
  | error m =>
    rw [countP_append, countP_sweepEvs_zero isLookup (fun _ => rfl) rfl]
    simp [countP, List.filter, isLookup]
  | ok h =>
    cases o.lookupResult <;>
      (rw [countP_append, countP_sweepEvs_zero isLookup (fun _ => rfl) rfl];
        simp [countP, List.filter, isLookup])

theorem countP_callbackEvs_zero (p : Ev → Bool) (hl : ∀ m, p (Ev.logged m) = false)
    (hu : ∀ id, p (Ev.cacheUpdate id) = false) (c : Bool) (o : FileUploadOracle)
    (a : Option String) : countP p (callbackEvs c o a) = 0 := by
  cases a with
  | none => rfl
  | some id =>
    unfold callbackEvs
    cases c with
    | false => simp [countP, List.filter]
    | true => cases h : o.updateResult id <;> simp [h, countP, List.filter, hl, hu]

theorem countP_callbackEvs_update_le (c : Bool) (o : FileUploadOracle) (a : Option String) :
    countP isUpdate (callbackEvs c o a) ≤ 1 := by
  cases a with
  | none => simp [callbackEvs, countP, List.filter]
  | some id =>
    unfold callbackEvs
    cases c with
    | false => simp [countP, List.filter]
    | true => cases h : o.updateResult id <;> simp [h, countP, List.filter, isUpdate]

theorem callbackEvs_false (o : FileUploadOracle) (a : Option String) :
    callbackEvs false o a = [] := by
  cases a <;> rfl

theorem countP_finishEvs_zero (p : Ev → Bool) (hl : ∀ m, p (Ev.logged m) = false)
    (hr : p Ev.cacheRemove = false) (c : Bool) (o : FileUploadOracle) :
    countP p (finishEvs c o) = 0 := by
  unfold finishEvs
  cases c with
  | false => rfl
  | true => cases h : o.removeResult <;> simp [h, countP, List.filter, hl, hr]

theorem countP_finishEvs_remove_le (c : Bool) (o : FileUploadOracle) :
    countP isRemove (finishEvs c o) ≤ 1 := by
  unfold finishEvs
  cases c with
  | false => simp [countP, List.filter]
  | true => cases h : o.removeResult <;> simp [h, countP, List.filter, isRemove]

theorem countP_cons {α : Type} (p : α → Bool) (e : α) (l : List α) :
    countP p (e :: l) = (if p e then 1 else 0) + countP p l := by
  cases h : p e with
  | true => rw [countP_cons_true h]; simp [Nat.add_comm]
  | false => rw [countP_cons_false h]; simp

theorem cachePhase_snd (o : FileUploadOracle) :
    (cachePhase o).2 =
      match o.hashResult with
      | .error m => .error (.other m)
      | .ok _ =>
        match o.lookupResult with
        | .found id => .ok id
        | .notFound => .ok ""
        | .ioError m => .error (.other m) := by
  unfold cachePhase
  cases o.hashResult with
  | error m => rfl
  | ok h => cases o.lookupResult <;> rfl

theorem transferPhase_snd (c : Bool) (o : FileUploadOracle) (id : String) :
    (transferPhase c o id).2 =
      match (o.resumeOutcome id).result with
      | .ok rev => .ok rev
      | .error .notFound =>
        match o.freshOutcome.result with
        | .ok rev => .ok rev
        | .error e => .error e
      | .error (.other m) => .error (.other m) := by
  unfold transferPhase
  cases hres : (o.resumeOutcome id).result with
  | ok rev => simp [hres]
  | error e =>
    cases e with
    | notFound => cases hfr : o.freshOutcome.result <;> simp [hres, hfr]
    | other m => simp [hres]

theorem uploadFileResource_snd (cachePath : String) (o : FileUploadOracle) :
    (uploadFileResource cachePath o).2 = uploadResultSpec cachePath o := by
  unfold uploadFileResource uploadResultSpec
  cases o.openStat with
  | error m => rfl
  | ok sz =>
    cases hc : (cachePath == "") with
    | true => simp [transferPhase_snd]
    | false =>
      simp only [Bool.false_eq_true, if_false]
      have hcp2 := cachePhase_snd o
      rcases hcp : cachePhase o with ⟨evs, res⟩
      rw [hcp] at hcp2
      simp only at hcp2
      rw [← hcp2]
      cases res with
      | error e => rfl
      | ok id => simp [transferPhase_snd]

theorem countP_transferPhase_resume (c : Bool) (o : FileUploadOracle) (id : String) :
    countP isResume (transferPhase c o id).1 = 1 := by
  unfold transferPhase
  have hcb := countP_callbackEvs_zero isResume (fun _ => rfl) (fun _ => rfl) c o
  have hfe := countP_finishEvs_zero isResume (fun _ => rfl) rfl c o
  cases hres : (o.resumeOutcome id).result with
  | ok rev => simp [hres, countP_cons, countP_append, hcb, hfe, isResume]
  | error e =>
    cases e with
    | notFound =>
      cases hfr : o.freshOutcome.result <;>
        simp [hres, hfr, countP_cons, countP_append, hcb, hfe, isResume]
    | other m => simp [hres, countP_cons, countP_append, hcb, hfe, isResume]

theorem countP_transferPhase_fresh (c : Bool) (o : FileUploadOracle) (id : String) :
    countP isFresh (transferPhase c o id).1 ≤ 1 := by
  unfold transferPhase
  have hcb := countP_callbackEvs_zero isFresh (fun _ => rfl) (fun _ => rfl) c o
  have hfe := countP_finishEvs_zero isFresh (fun _ => rfl) rfl c o
  cases hres : (o.resumeOutcome id).result with
  | ok rev => simp [hres, countP_cons, countP_append, hcb, hfe, isFresh]
  | error e =>
    cases e with
    | notFound =>
      cases hfr : o.freshOutcome.result <;>
        simp [hres, hfr, countP_cons, countP_append, hcb, hfe, isFresh]
    | other m => simp [hres, countP_cons, countP_append, hcb, hfe, isFresh]

/-- Events that never occur in the transfer phase: anything other than
transfer calls, cache updates, cache removal, and log messages. -/
theorem countP_transferPhase_zero (p : Ev → Bool) (hl : ∀ m, p (Ev.logged m) = false)
    (hr : ∀ i, p (Ev.netResume i) = false) (hf : p Ev.netFresh = false)
    (hu : ∀ i, p (Ev.cacheUpdate i) = false) (hx : p Ev.cacheRemove = false)
    (c : Bool) (o : FileUploadOracle) (id : String) :
    countP p (transferPhase c o id).1 = 0 := by
  unfold transferPhase
  have hcb := countP_callbackEvs_zero p hl hu c o
  have hfe := countP_finishEvs_zero p hl hx c o
  cases hres : (o.resumeOutcome id).result with
  | ok rev => simp [hres, countP_cons, countP_append, hcb, hfe, hr, hf, hl]
  | error e =>
    cases e with
    | notFound =>
      cases hfr : o.freshOutcome.result <;>
        simp [hres, hfr, countP_cons, countP_append, hcb, hfe, hr, hf, hl]
    | other m => simp [hres, countP_cons, countP_append, hcb, hfe, hr, hf, hl]

theorem countP_transferPhase_remove_le (c : Bool) (o : FileUploadOracle) (id : String) :
    countP isRemove (transferPhase c o id).1 ≤ 1 := by
  unfold transferPhase
  have hcb := countP_callbackEvs_zero isRemove (fun _ => rfl) (fun _ => rfl) c o
  have hfe := countP_finishEvs_remove_le c o
  cases hres : (o.resumeOutcome id).result with
  | ok rev => simp [hres, countP_cons, countP_append, hcb, isRemove]; try omega
  | error e =>
    cases e with
    | notFound =>
      cases hfr : o.freshOutcome.result <;>
        (simp [hres, hfr, countP_cons, countP_append, hcb, isRemove]; try omega)
    | other m => simp [hres, countP_cons, countP_append, hcb, isRemove]

/-- Under the store contract — a transfer call resuming a non-empty upload
id allocates no new id, and the not-found error only arises for a non-empty
id — the transfer phase performs at most one cache update. -/
theorem countP_transferPhase_update_le (c : Bool) (o : FileUploadOracle) (id : String)
    (ha : ∀ i, i ≠ "" → (o.resumeOutcome i).assigned = none)
    (hb : (o.resumeOutcome "").result ≠ .error .notFound) :
    countP isUpdate (transferPhase c o id).1 ≤ 1 := by
  unfold transferPhase
  have hfe := countP_finishEvs_zero isUpdate (fun _ => rfl) rfl c o
  by_cases hid : id = ""
  · subst hid
    have hcb := countP_callbackEvs_update_le c o (o.resumeOutcome "").assigned
    cases hres : (o.resumeOutcome "").result with
    | ok rev => simp [hres, countP_cons, countP_append, hfe, isUpdate]; omega
    | error e =>
      cases e with
      | notFound => exact absurd hres hb
      | other m => simp [hres, countP_cons, countP_append, isUpdate]; omega
  · have hnone : (o.resumeOutcome id).assigned = none := ha id hid
    have hcb2 := countP_callbackEvs_update_le c o o.freshOutcome.assigned
    have hnil : callbackEvs c o (o.resumeOutcome id).assigned = [] := by
      rw [hnone]; rfl
    cases hres : (o.resumeOutcome id).result with
    | ok rev => simp [hres, countP_cons, countP_append, hnil, hfe, countP_nil, isUpdate]
    | error e =>
      cases e with
      | notFound =>
        cases hfr : o.freshOutcome.result <;>
          (simp [hres, hfr, countP_cons, countP_append, hnil, hfe, countP_nil, isUpdate];
            try omega)
      | other m => simp [hres, countP_cons, countP_append, hnil, countP_nil, isUpdate]

/-- The transfer phase always begins with the resume call carrying the
cached (possibly empty) upload id. -/
theorem transferPhase_head (c : Bool) (o : FileUploadOracle) (id : String) :
    ∃ t, (transferPhase c o id).1 = Ev.netResume id :: t := by
  unfold transferPhase
  cases hres : (o.resumeOutcome id).result with
  | ok rev =>
    exact ⟨callbackEvs c o (o.resumeOutcome id).assigned ++ finishEvs c o, by simp [hres]⟩
  | error e =>
    cases e with
    | notFound =>
      cases hfr : o.freshOutcome.result with
      | ok rev =>
        exact ⟨callbackEvs c o (o.resumeOutcome id).assigned ++
          Ev.logged "previous upload seems to have expired; restarting." ::
          Ev.netFresh :: (callbackEvs c o o.freshOutcome.assigned ++ finishEvs c o),
          by simp [hres, hfr]⟩
      | error e2 =>
        exact ⟨callbackEvs c o (o.resumeOutcome id).assigned ++
          Ev.logged "previous upload seems to have expired; restarting." ::
          Ev.netFresh :: callbackEvs c o o.freshOutcome.assigned,
          by simp [hres, hfr]⟩
    | other m => exact ⟨callbackEvs c o (o.resumeOutcome id).assigned, by simp [hres]⟩

/-- The cache-free transfer phase touches the cache in no way. -/
theorem countP_transferPhase_false_cache (o : FileUploadOracle) (id : String) :
    countP isCacheEv (transferPhase false o id).1 = 0 := by
  unfold transferPhase
  cases hres : (o.resumeOutcome id).result with
  | ok rev => simp [hres, countP_cons, countP_append, callbackEvs_false, finishEvs, countP_nil, isCacheEv]
  | error e =>
    cases e with
    | notFound =>
      cases hfr : o.freshOutcome.result <;>
        simp [hres, hfr, countP_cons, countP_append, callbackEvs_false, finishEvs, countP_nil, isCacheEv]
    | other m =>
      simp [hres, countP_cons, countP_append, callbackEvs_false, finishEvs, countP_nil, isCacheEv]

/-- Any occurrence of the cache-removal event in the transfer phase comes
after a successful transfer: the phase's result is a success, at least one
transfer call precedes the removal, and no transfer call follows it. -/
theorem transferPhase_remove_split (c : Bool) (o : FileUploadOracle) (id : String) :
    ∀ l1 l2, (transferPhase c o id).1 = l1 ++ Ev.cacheRemove :: l2 →
      (∃ rev, (transferPhase c o id).2 = .ok rev) ∧
      1 ≤ countP isNet l1 ∧ countP isNet l2 = 0 := by
  intro l1 l2 hs
  have hcbR := countP_callbackEvs_zero isRemove (fun _ => rfl) (fun _ => rfl) c o
  have hcbN := countP_callbackEvs_zero isNet (fun _ => rfl) (fun _ => rfl) c o
  have hfeN := countP_finishEvs_zero isNet (fun _ => rfl) rfl c o
  unfold transferPhase at hs ⊢
  cases hres : (o.resumeOutcome id).result with
  | ok rev =>
    simp only [hres] at hs
    have hA : countP isRemove
        (Ev.netResume id :: callbackEvs c o (o.resumeOutcome id).assigned) = 0 := by
      rw [countP_cons_false rfl, hcbR]
    obtain ⟨l1', hl1, hfin⟩ := split_in_right isRemove _ hs rfl hA
    refine ⟨⟨rev, by simp [hres]⟩, ?_, ?_⟩
    · rw [hl1, countP_append, countP_cons_true rfl, hcbN]
      omega
    · have h0 := hfeN
      rw [hfin, countP_append, countP_cons_false rfl] at h0
      omega
  | error e =>
    cases e with
    | notFound =>
      cases hfr : o.freshOutcome.result with
      | ok rev =>
        simp only [hres, hfr] at hs
        have hA : countP isRemove
            ((Ev.netResume id :: callbackEvs c o (o.resumeOutcome id).assigned) ++
              Ev.logged "previous upload seems to have expired; restarting." ::
              Ev.netFresh :: callbackEvs c o o.freshOutcome.assigned) = 0 := by
          rw [countP_append, countP_cons_false rfl, countP_cons_false rfl,
            countP_cons_false rfl, hcbR, hcbR]
        obtain ⟨l1', hl1, hfin⟩ := split_in_right isRemove _ hs rfl hA
        refine ⟨⟨rev, by simp [hres, hfr]⟩, ?_, ?_⟩
        · rw [hl1, countP_append, countP_append, countP_cons_true rfl, hcbN]
          omega
        · have h0 := hfeN
          rw [hfin, countP_append, countP_cons_false rfl] at h0
          omega
      | error e2 =>
        simp only [hres, hfr] at hs
        have hA : countP isRemove
            ((Ev.netResume id :: callbackEvs c o (o.resumeOutcome id).assigned) ++
              Ev.logged "previous upload seems to have expired; restarting." ::
              Ev.netFresh :: callbackEvs c o o.freshOutcome.assigned) = 0 := by
          rw [countP_append, countP_cons_false rfl, countP_cons_false rfl,
            countP_cons_false rfl, hcbR, hcbR]
        exact (no_split_of_countP_zero rfl hA hs).elim
    | other m =>
      simp only [hres] at hs
      have hA : countP isRemove
          (Ev.netResume id :: callbackEvs c o (o.resumeOutcome id).assigned) = 0 := by
        rw [countP_cons_false rfl, hcbR]
      exact (no_split_of_countP_zero rfl hA hs).elim

/-! ## Run-shape equations of uploadFileResource -/

theorem uploadFileResource_eq_openErr (cachePath : String) (o : FileUploadOracle) (m : String)
    (ho : o.openStat = .error m) :
    uploadFileResource cachePath o = ([], .error (.other m)) := by
  unfold uploadFileResource
  simp [ho]

theorem uploadFileResource_eq_noCache (o : FileUploadOracle) (sz : Int)
    (ho : o.openStat = .ok sz) :
    uploadFileResource "" o = transferPhase false o "" := by
  unfold uploadFileResource
  simp [ho]

theorem uploadFileResource_eq_cacheOk (cachePath : String) (o : FileUploadOracle) (sz : Int)
    (id : String) (evs : List Ev) (ho : o.openStat = .ok sz)
    (hc : (cachePath == "") = false) (hcp : cachePhase o = (evs, .ok id)) :
    uploadFileResource cachePath o =
      (evs ++ (transferPhase true o id).1, (transferPhase true o id).2) := by
  unfold uploadFileResource
  simp [ho, hc, hcp]

theorem uploadFileResource_eq_cacheErr (cachePath : String) (o : FileUploadOracle) (sz : Int)
    (e : UploadError) (evs : List Ev) (ho : o.openStat = .ok sz)
    (hc : (cachePath == "") = false) (hcp : cachePhase o = (evs, .error e)) :
    uploadFileResource cachePath o = (evs, .error e) := by
  unfold uploadFileResource
  simp [ho, hc, hcp]

theorem countP_transferPhase_fresh_notFound (c : Bool) (o : FileUploadOracle) (id : String)
    (hres : (o.resumeOutcome id).result = .error .notFound) :
    countP isFresh (transferPhase c o id).1 = 1 := by
  unfold transferPhase
  have hcb := countP_callbackEvs_zero isFresh (fun _ => rfl) (fun _ => rfl) c o
  have hfe := countP_finishEvs_zero isFresh (fun _ => rfl) rfl c o
  cases hfr : o.freshOutcome.result <;>
    simp [hres, hfr, countP_cons, countP_append, hcb, hfe, isFresh]

theorem countP_transferPhase_fresh_other (c : Bool) (o : FileUploadOracle) (id m : String)
    (hres : (o.resumeOutcome id).result = .error (.other m)) :
    countP isFresh (transferPhase c o id).1 = 0 := by
  unfold transferPhase
  have hcb := countP_callbackEvs_zero isFresh (fun _ => rfl) (fun _ => rfl) c o
  simp [hres, countP_cons, countP_append, hcb, isFresh]

/-! ## Content hasher claims -/

/-- C3 counterexample: on a read failure, readSeekerSHA256 returns the error
without seeking back, leaving the read position at the failure offset (3),
not at the start. -/
theorem readFailureLeavesPositionUnreset :
    (readSeekerSHA256 ⟨[1, 2, 3, 4, 5], 0⟩ (.errAt 3 "read error") true).2 =
      .error "read error" ∧
    (readSeekerSHA256 ⟨[1, 2, 3, 4, 5], 0⟩ (.errAt 3 "read error") true).1.pos = 3 ∧
    (3 : Nat) ≠ 0 :=
  ⟨rfl, rfl, by decide⟩

/-- C3 (amended): for a source read from the start, the hasher on success
returns the 32-byte SHA-256 digest of the entire content and resets the
position to the start; on a read failure it returns the error with the
position left at the failure offset, and on a seek failure it returns an
error with the position left at the end — failure paths do not reset the
position. -/
theorem contentHasherContract (r : ReadSeeker) (h0 : r.pos = 0) :
    ((readSeekerSHA256 r .ok true).2 = .ok (Sha256.sha256 r.content) ∧
      (Sha256.sha256 r.content).length = 32 ∧
      (readSeekerSHA256 r .ok true).1.pos = 0) ∧
    (∀ k m, (readSeekerSHA256 r (.errAt k m) true).2 = .error m ∧
      (readSeekerSHA256 r (.errAt k m) true).1.pos = k) ∧
    ((readSeekerSHA256 r .ok false).2 = .error "seek failed" ∧
      (readSeekerSHA256 r .ok false).1.pos = r.content.length) := by
  refine ⟨⟨?_, sha256_length r.content, rfl⟩, fun k m => ⟨rfl, rfl⟩, rfl, rfl⟩
  simp [readSeekerSHA256, ioCopyHash, h0]

/-- C3 (amended) witness: a concrete successful run over content [1, 2, 3]
returns its digest and resets the position to the start. -/
theorem contentHasherContract_witness :
    (readSeekerSHA256 ⟨[1, 2, 3], 0⟩ .ok true).2 = .ok (Sha256.sha256 [1, 2, 3]) ∧
    (readSeekerSHA256 ⟨[1, 2, 3], 0⟩ .ok true).1.pos = 0 :=
  ⟨(contentHasherContract ⟨[1, 2, 3], 0⟩ rfl).1.1,
   (contentHasherContract ⟨[1, 2, 3], 0⟩ rfl).1.2.2⟩

/-! ## Resumable upload engine claims -/

/-- C1: in an invocation that finds a cached upload identifier, resumption
is attempted exactly once; a not-found resume failure triggers exactly one
fresh attempt whose own failure (of any kind) is returned as fatal; any
other resume failure is fatal with no fresh attempt; neither transfer call
is ever repeated. -/
theorem resumeAtMostOnceThenFreshFatal (cachePath : String) (o : FileUploadOracle)
    (sz : Int) (hbytes : List Nat) (id : String)
    (ho : o.openStat = .ok sz)
    (hc : (cachePath == "") = false)
    (hh : o.hashResult = .ok hbytes)
    (hl : o.lookupResult = .found id) :
    countP isResume (uploadFileResource cachePath o).1 = 1 ∧
    countP isFresh (uploadFileResource cachePath o).1 ≤ 1 ∧
    ((o.resumeOutcome id).result = .error .notFound →
      countP isFresh (uploadFileResource cachePath o).1 = 1 ∧
      ∀ e, o.freshOutcome.result = .error e →
        (uploadFileResource cachePath o).2 = .error e) ∧
    (∀ m, (o.resumeOutcome id).result = .error (.other m) →
      countP isFresh (uploadFileResource cachePath o).1 = 0 ∧
      (uploadFileResource cachePath o).2 = .error (.other m)) := by
  rcases hcp : cachePhase o with ⟨evs, res⟩
  have hres0 := cachePhase_snd o
  rw [hcp, hh, hl] at hres0
  simp only at hres0
  subst hres0
  have hEq := uploadFileResource_eq_cacheOk cachePath o sz id evs ho hc hcp
  rw [hEq]
  have hevsR : countP isResume evs = 0 := by
    have h := countP_cachePhase_zero isResume (fun _ => rfl) rfl rfl rfl o
    rw [hcp] at h
    simpa using h
  have hevsF : countP isFresh evs = 0 := by
    have h := countP_cachePhase_zero isFresh (fun _ => rfl) rfl rfl rfl o
    rw [hcp] at h
    simpa using h
  refine ⟨?_, ?_, ?_, ?_⟩
  · rw [countP_append, hevsR, countP_transferPhase_resume]
  · rw [countP_append, hevsF]
    simpa using countP_transferPhase_fresh true o id
  · intro hres
    refine ⟨?_, ?_⟩
    · rw [countP_append, hevsF, countP_transferPhase_fresh_notFound true o id hres]
    · intro e hfre
      simp [transferPhase_snd, hres, hfre]
  · intro m hres
    refine ⟨?_, ?_⟩
    · rw [countP_append, hevsF, countP_transferPhase_fresh_other true o id m hres]
    · simp [transferPhase_snd, hres]

/-- C1 witness: a concrete run whose cached id the store rejected performs
one resume call and one fresh call, and the fresh attempt's success is
returned. -/
theorem resumeAtMostOnceThenFreshFatal_witness :
    countP isResume (uploadFileResource "/cache" resumeNotFoundOracle).1 = 1 ∧
    countP isFresh (uploadFileResource "/cache" resumeNotFoundOracle).1 = 1 :=
  ⟨(resumeAtMostOnceThenFreshFatal "/cache" resumeNotFoundOracle 100 [1, 2] "id-1"
      rfl rfl rfl rfl).1,
   ((resumeAtMostOnceThenFreshFatal "/cache" resumeNotFoundOracle 100 [1, 2] "id-1"
      rfl rfl rfl rfl).2.2.1 rfl).1⟩

/-- C5: in every invocation, every cache lookup precedes every network
transfer call, and any cache-entry removal happens only after a transfer the
store reported successful (the invocation's result is that success), with no
transfer following the removal. -/
theorem lookupBeforeTransferRemoveAfterSuccess (cachePath : String) (o : FileUploadOracle) :
    (∀ l1 l2, (uploadFileResource cachePath o).1 = l1 ++ Ev.cacheLookup :: l2 →
      countP isNet l1 = 0) ∧
    (∀ l1 l2, (uploadFileResource cachePath o).1 = l1 ++ Ev.cacheRemove :: l2 →
      (∃ rev, (uploadFileResource cachePath o).2 = .ok rev) ∧
      1 ≤ countP isNet l1 ∧ countP isNet l2 = 0) := by
  cases ho : o.openStat with
  | error m =>
    have hPair := uploadFileResource_eq_openErr cachePath o m ho
    have hTr : (uploadFileResource cachePath o).1 = [] := by rw [hPair]
    rw [hTr]
    exact ⟨fun l1 l2 hs => (no_split_of_countP_zero rfl (countP_nil isLookup) hs).elim,
      fun l1 l2 hs => (no_split_of_countP_zero rfl (countP_nil isRemove) hs).elim⟩
  | ok sz =>
    by_cases hc0 : cachePath = ""
    · subst hc0
      rw [uploadFileResource_eq_noCache o sz ho]
      have hL := countP_transferPhase_zero isLookup (fun _ => rfl) (fun _ => rfl) rfl
        (fun _ => rfl) rfl false o ""
      exact ⟨fun l1 l2 hs => (no_split_of_countP_zero rfl hL hs).elim,
        transferPhase_remove_split false o ""⟩
    · have hc : (cachePath == "") = false := by
        simp only [beq_eq_false_iff_ne, ne_eq]
        exact hc0
      rcases hcp : cachePhase o with ⟨evs, res⟩
      have hevsN : countP isNet evs = 0 := by
        have h := countP_cachePhase_zero isNet (fun _ => rfl) rfl rfl rfl o
        rw [hcp] at h
        simpa using h
      have hevsRm : countP isRemove evs = 0 := by
        have h := countP_cachePhase_zero isRemove (fun _ => rfl) rfl rfl rfl o
        rw [hcp] at h
        simpa using h
      cases res with
      | error e =>
        have hPair := uploadFileResource_eq_cacheErr cachePath o sz e evs ho hc hcp
        have hTr : (uploadFileResource cachePath o).1 = evs := by rw [hPair]
        rw [hTr]
        refine ⟨fun l1 l2 hs => ?_, fun l1 l2 hs => (no_split_of_countP_zero rfl hevsRm hs).elim⟩
        rw [hs, countP_append, countP_cons_false rfl] at hevsN
        omega
      | ok id =>
        have hPair := uploadFileResource_eq_cacheOk cachePath o sz id evs ho hc hcp
        have hTr : (uploadFileResource cachePath o).1 = evs ++ (transferPhase true o id).1 := by
          rw [hPair]
        have hRes : (uploadFileResource cachePath o).2 = (transferPhase true o id).2 := by
          rw [hPair]
        rw [hTr, hRes]
        have hTL := countP_transferPhase_zero isLookup (fun _ => rfl) (fun _ => rfl) rfl
          (fun _ => rfl) rfl true o id
        refine ⟨fun l1 l2 hs => ?_, fun l1 l2 hs => ?_⟩
        · obtain ⟨l2', hevs, -⟩ := split_in_left isLookup evs hs rfl hTL
          rw [hevs, countP_append, countP_cons_false rfl] at hevsN
          omega
        · obtain ⟨l1', hl1, hT⟩ := split_in_right isRemove evs hs rfl hevsRm
          obtain ⟨hok, h1, h2⟩ := transferPhase_remove_split true o id l1' l2 hT
          refine ⟨hok, ?_, h2⟩
          rw [hl1, countP_append]
          omega

/-- C5 witness: in a concrete successful resumed run, the lookup precedes
the transfer and the removal follows the successful transfer. -/
theorem lookupBeforeTransferRemoveAfterSuccess_witness :
    countP isNet [Ev.sweep, Ev.hashContent] = 0 ∧
    ((∃ rev, (uploadFileResource "/cache" resumeOkOracle).2 = .ok rev) ∧
      1 ≤ countP isNet [Ev.sweep, Ev.hashContent, Ev.cacheLookup, Ev.netResume "id-1"] ∧
      countP isNet ([] : List Ev) = 0) :=
  ⟨(lookupBeforeTransferRemoveAfterSuccess "/cache" resumeOkOracle).1
      [Ev.sweep, Ev.hashContent]
      [Ev.netResume "id-1", Ev.cacheRemove] rfl,
   (lookupBeforeTransferRemoveAfterSuccess "/cache" resumeOkOracle).2
      [Ev.sweep, Ev.hashContent, Ev.cacheLookup, Ev.netResume "id-1"] [] rfl⟩

/-- C6: within one invocation, the persisted cache is read (looked up) at
most once and written at most twice — at most one update, made when the
store assigns a new upload session identifier, and at most one removal, made
on completion.  Stated under the store contract that resuming a non-empty
upload id allocates no new id and that the not-found error only arises for a
non-empty id. -/
theorem cacheReadOnceWrittenTwice (cachePath : String) (o : FileUploadOracle)
    (ha : ∀ i, i ≠ "" → (o.resumeOutcome i).assigned = none)
    (hb : (o.resumeOutcome "").result ≠ .error .notFound) :
    countP isLookup (uploadFileResource cachePath o).1 ≤ 1 ∧
    countP isUpdate (uploadFileResource cachePath o).1 ≤ 1 ∧
    countP isRemove (uploadFileResource cachePath o).1 ≤ 1 := by
  cases ho : o.openStat with
  | error m =>
    have hPair := uploadFileResource_eq_openErr cachePath o m ho
    have hTr : (uploadFileResource cachePath o).1 = [] := by rw [hPair]
    rw [hTr]
    exact ⟨by simp [countP_nil], by simp [countP_nil], by simp [countP_nil]⟩
  | ok sz =>
    by_cases hc0 : cachePath = ""
    · subst hc0
      have hTr : (uploadFileResource "" o).1 = (transferPhase false o "").1 := by
        rw [uploadFileResource_eq_noCache o sz ho]
      rw [hTr]
      refine ⟨?_, countP_transferPhase_update_le false o "" ha hb,
        countP_transferPhase_remove_le false o ""⟩
      rw [countP_transferPhase_zero isLookup (fun _ => rfl) (fun _ => rfl) rfl
        (fun _ => rfl) rfl]
      omega
    · have hc : (cachePath == "") = false := by
        simp only [beq_eq_false_iff_ne, ne_eq]
        exact hc0
      rcases hcp : cachePhase o with ⟨evs, res⟩
      have hevsL : countP isLookup evs ≤ 1 := by
        have h := countP_cachePhase_lookup_le o
        rw [hcp] at h
        simpa using h
      have hevsU : countP isUpdate evs = 0 := by
        have h := countP_cachePhase_zero isUpdate (fun _ => rfl) rfl rfl rfl o
        rw [hcp] at h
        simpa using h
      have hevsRm : countP isRemove evs = 0 := by
        have h := countP_cachePhase_zero isRemove (fun _ => rfl) rfl rfl rfl o
        rw [hcp] at h
        simpa using h
      cases res with
      | error e =>
        have hTr : (uploadFileResource cachePath o).1 = evs := by
          rw [uploadFileResource_eq_cacheErr cachePath o sz e evs ho hc hcp]
        rw [hTr]
        exact ⟨hevsL, by omega, by omega⟩
      | ok id =>
        have hTr : (uploadFileResource cachePath o).1 = evs ++ (transferPhase true o id).1 := by
          rw [uploadFileResource_eq_cacheOk cachePath o sz id evs ho hc hcp]
        rw [hTr]
        have hTL := countP_transferPhase_zero isLookup (fun _ => rfl) (fun _ => rfl) rfl
          (fun _ => rfl) rfl true o id
        have hTU := countP_transferPhase_update_le true o id ha hb
        have hTRm := countP_transferPhase_remove_le true o id
        refine ⟨?_, ?_, ?_⟩ <;> rw [countP_append] <;> omega

/-- C6 witness: the bounds hold on a concrete successful resumed run. -/
theorem cacheReadOnceWrittenTwice_witness :
    countP isLookup (uploadFileResource "/cache" resumeOkOracle).1 ≤ 1 ∧
    countP isUpdate (uploadFileResource "/cache" resumeOkOracle).1 ≤ 1 ∧
    countP isRemove (uploadFileResource "/cache" resumeOkOracle).1 ≤ 1 :=
  cacheReadOnceWrittenTwice "/cache" resumeOkOracle (fun _ _ => rfl)
    (by simp [resumeOkOracle])

/-- C7: with no cache path configured, the resume branch is skipped
entirely: the invocation touches the cache in no way, computes no content
hash, starts with a fresh upload carrying an empty resume token, and
succeeds whenever the store accepts the transfer — a valid mode, not an
error. -/
theorem noCachePathSkipsResumeBranch (o : FileUploadOracle) (sz : Int)
    (ho : o.openStat = .ok sz) :
    countP isCacheEv (uploadFileResource "" o).1 = 0 ∧
    countP isHash (uploadFileResource "" o).1 = 0 ∧
    (∃ t, (uploadFileResource "" o).1 = Ev.netResume "" :: t) ∧
    (∀ rev, (o.resumeOutcome "").result = .ok rev →
      (uploadFileResource "" o).2 = .ok rev) := by
  have hPair := uploadFileResource_eq_noCache o sz ho
  have hTr : (uploadFileResource "" o).1 = (transferPhase false o "").1 := by rw [hPair]
  have hRes : (uploadFileResource "" o).2 = (transferPhase false o "").2 := by rw [hPair]
  rw [hTr, hRes]
  refine ⟨countP_transferPhase_false_cache o "", ?_, transferPhase_head false o "", ?_⟩
  · exact countP_transferPhase_zero isHash (fun _ => rfl) (fun _ => rfl) rfl (fun _ => rfl)
      rfl false o ""
  · intro rev hres
    simp [transferPhase_snd, hres]

/-- C7 witness: the cache-free mode on a concrete oracle. -/
theorem noCachePathSkipsResumeBranch_witness :
    countP isCacheEv (uploadFileResource "" resumeOkOracle).1 = 0 ∧
    countP isHash (uploadFileResource "" resumeOkOracle).1 = 0 ∧
    (∃ t, (uploadFileResource "" resumeOkOracle).1 = Ev.netResume "" :: t) ∧
    (∀ rev, (resumeOkOracle.resumeOutcome "").result = .ok rev →
      (uploadFileResource "" resumeOkOracle).2 = .ok rev) :=
  noCachePathSkipsResumeBranch resumeOkOracle 100 rfl

/-- C8 counterexample: a cache error that is not an initialization failure
is propagated as fatal — a lookup I/O error aborts the invocation before any
transfer (the cache constructor in this code cannot fail at all). -/
theorem cacheLookupErrorFatal :
    (uploadFileResource "/cache" lookupErrorOracle).2 = .error (.other "disk failure") ∧
    countP isNet (uploadFileResource "/cache" lookupErrorOracle).1 = 0 :=
  ⟨rfl, rfl⟩

/-- C8 (amended): cache I/O errors during the expiry sweep, the upload-id
update, and the completed-upload removal are logged and swallowed and never
change the invocation's result, which depends only on the open/stat, hash,
lookup, and transfer outcomes; a cache error is propagated as fatal when the
cache-entry lookup fails with an error other than the distinguished
not-found. -/
theorem cacheBookkeepingErrorsSwallowed (cachePath : String) (o o' : FileUploadOracle)
    (h1 : o'.openStat = o.openStat) (h2 : o'.hashResult = o.hashResult)
    (h3 : o'.lookupResult = o.lookupResult) (h4 : o'.resumeOutcome = o.resumeOutcome)
    (h5 : o'.freshOutcome = o.freshOutcome) :
    (uploadFileResource cachePath o').2 = (uploadFileResource cachePath o).2 ∧
    (∀ m sz, o.openStat = .ok sz → (cachePath == "") = false →
      o.sweepResult = .error m →
      Ev.logged ("cannot remove expired uploadId cache entries: " ++ m) ∈
        (uploadFileResource cachePath o).1) ∧
    (∀ m sz hbytes, o.openStat = .ok sz → (cachePath == "") = false →
      o.hashResult = .ok hbytes → o.lookupResult = .ioError m →
      (uploadFileResource cachePath o).2 = .error (.other m)) := by
  refine ⟨?_, ?_, ?_⟩
  · rw [uploadFileResource_snd, uploadFileResource_snd]
    unfold uploadResultSpec
    rw [h1, h2, h3, h4, h5]
  · intro m sz ho hc hsw
    rcases hcp : cachePhase o with ⟨evs, res⟩
    have hmem : Ev.logged ("cannot remove expired uploadId cache entries: " ++ m) ∈ evs := by
      have hevs : evs = (cachePhase o).1 := by rw [hcp]
      rw [hevs]
      unfold cachePhase sweepEvs
      rw [hsw]
      cases o.hashResult with
      | error mm => simp
      | ok hb => cases o.lookupResult <;> simp
    cases res with
    | error e =>
      have hTr : (uploadFileResource cachePath o).1 = evs := by
        rw [uploadFileResource_eq_cacheErr cachePath o sz e evs ho hc hcp]
      rw [hTr]
      exact hmem
    | ok id =>
      have hTr : (uploadFileResource cachePath o).1 = evs ++ (transferPhase true o id).1 := by
        rw [uploadFileResource_eq_cacheOk cachePath o sz id evs ho hc hcp]
      rw [hTr]
      exact List.mem_append.mpr (Or.inl hmem)
  · intro m sz hbytes ho hc hh hl
    rw [uploadFileResource_snd]
    unfold uploadResultSpec
    simp [ho, hc, hh, hl]

/-- C8 (amended) witness: a concrete failing sweep leaves the result of the
run unchanged and the failure logged. -/
theorem cacheBookkeepingErrorsSwallowed_witness :
    (uploadFileResource "/cache" sweepErrorOracle).2 =
      (uploadFileResource "/cache" resumeOkOracle).2 ∧
    Ev.logged ("cannot remove expired uploadId cache entries: " ++ "boom") ∈
      (uploadFileResource "/cache" sweepErrorOracle).1 :=
  ⟨(cacheBookkeepingErrorsSwallowed "/cache" resumeOkOracle sweepErrorOracle
      rfl rfl rfl rfl rfl).1,
   (cacheBookkeepingErrorsSwallowed "/cache" sweepErrorOracle sweepErrorOracle
      rfl rfl rfl rfl rfl).2.1 "boom" 100 rfl rfl rfl⟩

/-! ## Docker dispatcher claims -/

theorem countP_map_headReq (p : DEv → Bool) (hp : ∀ u, p (DEv.headReq u) = false)
    (l : List String) : countP p (l.map DEv.headReq) = 0 := by
  induction l with
  | nil => rfl
  | cons a l ih => rw [List.map_cons, countP_cons_false (hp a), ih]

theorem countP_isPush_external (o : DockerOracle) (r : Reference) :
    countP isPush (uploadExternalDockerResource o r).1 = 0 := by
  unfold uploadExternalDockerResource
  cases hd : (imageDigestForReference o.registry r).2 with
  | error m =>
    simp only [hd]
    exact countP_map_headReq isPush (fun _ => rfl) _
  | ok d =>
    cases ha : o.addDockerResource (Reference.name r) d <;>
      simp [hd, ha, countP_append, countP_cons, countP_nil,
        countP_map_headReq isPush (fun _ => rfl), isPush]

theorem external_register_once (o : DockerOracle) (r : Reference) (d : String)
    (hd : (imageDigestForReference o.registry r).2 = .ok d) :
    countP isRegister (uploadExternalDockerResource o r).1 = 1 ∧
    DEv.addDockerResource (Reference.name r) d ∈ (uploadExternalDockerResource o r).1 := by
  unfold uploadExternalDockerResource
  cases ha : o.addDockerResource (Reference.name r) d <;>
    (simp only [hd, ha]
     refine ⟨?_, by simp⟩
     rw [countP_append, countP_map_headReq isRegister (fun _ => rfl)]
     simp [countP_cons, countP_nil, isRegister])

/-- C9: a docker resource reference is routed to the external-registry
digest-resolution path exactly when it begins with "external::"; the marker
is stripped before the reference is parsed (the parse event carries the
trimmed string); and on the external path no image bytes are pushed — on
success exactly one store registration is made, carrying the parsed
reference's name as hint together with the resolved digest. -/
theorem externalDockerDispatch (o : DockerOracle) (ref : String) (r : Reference)
    (hp : o.parseNormalizedNamed (trimPrefixStr "external::" ref) = .ok r) :
    (∃ t, (uploadDockerResource o ref).1 =
      DEv.parseRef (trimPrefixStr "external::" ref) :: t) ∧
    (hasPrefixStr ref "external::" = true →
      uploadDockerResource o ref =
        (DEv.parseRef (trimPrefixStr "external::" ref) ::
          (uploadExternalDockerResource o r).1,
          (uploadExternalDockerResource o r).2) ∧
      countP isPush (uploadDockerResource o ref).1 = 0 ∧
      ∀ d, (imageDigestForReference o.registry r).2 = .ok d →
        countP isRegister (uploadDockerResource o ref).1 = 1 ∧
        DEv.addDockerResource (Reference.name r) d ∈ (uploadDockerResource o ref).1) ∧
    (hasPrefixStr ref "external::" = false →
      uploadDockerResource o ref =
        (DEv.parseRef ref :: (uploadLocalDockerResource o r).1,
          (uploadLocalDockerResource o r).2)) := by
  have hbr := trimPrefixStr_length_ne_iff ref
  have hMain : uploadDockerResource o ref =
      (if hasPrefixStr ref "external::" then
        (DEv.parseRef (trimPrefixStr "external::" ref) ::
          (uploadExternalDockerResource o r).1, (uploadExternalDockerResource o r).2)
      else
        (DEv.parseRef (trimPrefixStr "external::" ref) ::
          (uploadLocalDockerResource o r).1, (uploadLocalDockerResource o r).2)) := by
    unfold uploadDockerResource
    simp only [hp, hbr]
  cases hpre : hasPrefixStr ref "external::" with
  | true =>
    rw [hpre] at hMain
    simp only [if_true] at hMain
    refine ⟨⟨_, by rw [hMain]⟩, fun _ => ⟨hMain, ?_, ?_⟩, fun hfalse => by simp at hfalse⟩
    · rw [hMain]
      simp only []
      rw [countP_cons_false rfl, countP_isPush_external]
    · intro d hd
      obtain ⟨h1, h2⟩ := external_register_once o r d hd
      rw [hMain]
      constructor
      · rw [countP_cons_false rfl, h1]
      · exact List.mem_cons_of_mem _ h2
  | false =>
    rw [hpre] at hMain
    simp only [Bool.false_eq_true, if_false] at hMain
    have htrim : trimPrefixStr "external::" ref = ref := by
      unfold trimPrefixStr
      rw [hpre]
      simp
    refine ⟨⟨_, by rw [hMain]⟩, fun htrue => by simp at htrue, ?_⟩
    intro _
    rw [hMain, htrim]

/-- C9 witness: a concrete external-marked reference is parsed after
stripping the marker, pushes no image bytes, and registers the resolved
digest with the parsed name as hint. -/
theorem externalDockerDispatch_witness :
    (∃ t, (uploadDockerResource externalDockerOracle "external::example.com/my/repo:v1").1 =
      DEv.parseRef "example.com/my/repo:v1" :: t) ∧
    countP isPush
      (uploadDockerResource externalDockerOracle "external::example.com/my/repo:v1").1 = 0 ∧
    DEv.addDockerResource (Reference.name tagRef) "sha256:aaa" ∈
      (uploadDockerResource externalDockerOracle "external::example.com/my/repo:v1").1 := by
  have H := externalDockerDispatch externalDockerOracle "external::example.com/my/repo:v1"
    tagRef rfl
  exact ⟨H.1, (H.2.1 rfl).2.1, ((H.2.1 rfl).2.2 "sha256:aaa" rfl).2⟩

end Charmcmd
